import Mathlib

/-!
Verification of the rendering/export core of `react-barrel-distortion`
(`src/BarrelDistortionText.jsx`), as a shallow embedding in Lean 4.

Modelling conventions:
* JavaScript strings are modelled as `List Char`; `text.split(' ')` is
  `List.splitOn ' '`, `a + " " + b` is `a ++ ' ' :: b`, and joining with
  single spaces is `List.intercalate [' ']`.
* JavaScript numbers appearing in pure bookkeeping code (text widths,
  colors, uniform scalars handed to the GPU) are modelled as `ℚ`;
  the fragment-shader arithmetic (which uses `sin`, `sqrt`, `fract`)
  is modelled over `ℝ` with exact real arithmetic.
* The fragment shader is a pure per-pixel function; the bound texture is
  an arbitrary function `ℝ → ℝ → Vec4` pre-composed with the
  `CLAMP_TO_EDGE` coordinate clamp configured at texture setup.
* The 2D canvas context used by the text rasterizer is modelled by the
  state the claims are about: its `globalCompositeOperation` plus the
  journal of glyph-paint calls (each recorded with the compositing mode
  in force when it ran); `fillText` may fail, as decided by an oracle.
-/

/-! ### Text wrapping (`wrapText`, source lines 74-90 and 422) -/

/-- The loop of `wrapText`: `currentLine` is the line being accumulated,
the remaining words are folded in one forward pass.  Mirrors
`for (let i = 1; i < words.length; i++) { ... } lines.push(currentLine)`. -/
def wrapAux (context : List Char → ℚ) (maxWidth : ℚ) :
    List Char → List (List Char) → List (List Char)
  | currentLine, [] => [currentLine]
  | currentLine, word :: rest =>
    let width := context (currentLine ++ ' ' :: word)
    if width < maxWidth then
      wrapAux context maxWidth (currentLine ++ ' ' :: word) rest
    else
      currentLine :: wrapAux context maxWidth word rest

/-- `wrapText(context, text, maxWidth)` from the source: split on single
spaces, start from `words[0] || ''`, then greedily fill lines.
`context` stands for `context.measureText(·).width`. -/
def wrapText (context : List Char → ℚ) (text : List Char) (maxWidth : ℚ) :
    List (List Char) :=
  let words := text.splitOn ' '
  wrapAux context maxWidth (words.headD []) words.tail

/-- The per-raw-line body of the rasterizer's `rawLines.forEach` (source
lines 144-150 / 471): wrap only when the measured width exceeds
`maxWidth` AND the line contains a space; otherwise emit the line as is. -/
def processRawLine (context : List Char → ℚ) (maxWidth : ℚ)
    (line : List Char) : List (List Char) :=
  if context line > maxWidth ∧ ' ' ∈ line then
    wrapText context line maxWidth
  else
    [line]

/-- The whole wrapped-lines computation over the raw (newline-split) lines. -/
def buildWrappedLines (context : List Char → ℚ) (maxWidth : ℚ)
    (rawLines : List (List Char)) : List (List Char) :=
  rawLines.flatMap (processRawLine context maxWidth)

/-! ### Color parsing (`hexToRgb`, source lines 65-72 and 421) -/

/-- A normalized RGB triple as produced by `hexToRgb`. -/
structure Rgb where
  r : ℚ
  g : ℚ
  b : ℚ
  deriving DecidableEq

/-- The regex character class `[a-f\d]` with the `i` flag: a decimal digit
or a hex letter in either case (checked on the character code). -/
def isHexDigitChar (c : Char) : Bool :=
  (48 ≤ c.toNat && c.toNat ≤ 57) ||
  (97 ≤ c.toNat && c.toNat ≤ 102) ||
  (65 ≤ c.toNat && c.toNat ≤ 70)

/-- The value of one hex digit, as `parseInt(·, 16)` assigns it. -/
def hexDigitVal (c : Char) : ℕ :=
  if 48 ≤ c.toNat && c.toNat ≤ 57 then c.toNat - 48
  else if 97 ≤ c.toNat then c.toNat - 97 + 10
  else c.toNat - 65 + 10

/-- The optional leading `#` of the regex `^#?...`. -/
def stripHash (hex : List Char) : List Char :=
  if hex.head? = some '#' then hex.tail else hex

/-- `hexToRgb` from the source: match `^#?([a-f\d]{2})([a-f\d]{2})([a-f\d]{2})$`
case-insensitively, then return each `parseInt(pair, 16) / 255`. -/
def hexToRgb (hex : List Char) : Option Rgb :=
  match stripHash hex with
  | [c1, c2, c3, c4, c5, c6] =>
    if isHexDigitChar c1 && isHexDigitChar c2 && isHexDigitChar c3 &&
       isHexDigitChar c4 && isHexDigitChar c5 && isHexDigitChar c6 then
      some ⟨((16 * hexDigitVal c1 + hexDigitVal c2 : ℕ) : ℚ) / 255,
            ((16 * hexDigitVal c3 + hexDigitVal c4 : ℕ) : ℚ) / 255,
            ((16 * hexDigitVal c5 + hexDigitVal c6 : ℕ) : ℚ) / 255⟩
    else none
  | _ => none

/-! ### Typing-reveal sequencing (spec §4.4(a); absent from `src/`) -/

/-- Modelled from the spec: `buildTypingSequence` (spec §4.4(a)) is described
only in the specification; no such function exists under `src/`.  Per the
spec's words: split `fullText` on runs of whitespace, discard empty tokens,
and produce the cumulative prefix after each token; if the text contains no
tokens, the sequence is the single-element `[fullText]`. -/
def buildTypingSequence (fullText : List Char) : List (List Char) :=
  let tokens := (fullText.splitOnP (fun c => c.isWhitespace)).filter
    (fun t => t ≠ [])
  if tokens.isEmpty then [fullText]
  else (List.range tokens.length).map
    (fun i => List.intercalate [' '] (tokens.take (i + 1)))

/-! ### Rasterizer compositing state (source line 471, `transparencyMode` path) -/

/-- The two values `globalCompositeOperation` takes in the rasterizer:
the default `source-over` and the glyph cut-out mode `destination-out`. -/
inductive CompositeOp
  | sourceOver
  | destinationOut
  deriving DecidableEq

/-- The three transparency modes of the v2 component
(`'normal' | 'text' | 'background'`). -/
inductive TransparencyMode
  | normal
  | text
  | background
  deriving DecidableEq

/-- The slice of 2D-context state the compositing claims are about:
the current compositing mode and the journal of successful `fillText`
calls, each recorded with the compositing mode in force when it ran. -/
structure Ctx2D where
  globalCompositeOperation : CompositeOp
  painted : List (List Char × CompositeOp)
  deriving DecidableEq

/-- One `fillText(line, ...)` call: it may raise (as decided by the
oracle `failsAt`), in which case the context is unchanged and the second
component is `false`; otherwise the glyph paint is journaled under the
current compositing mode. -/
def fillTextOp (failsAt : List Char → Bool) (ctx : Ctx2D) (line : List Char) :
    Ctx2D × Bool :=
  if failsAt line then (ctx, false)
  else ({ ctx with painted := ctx.painted ++ [(line, ctx.globalCompositeOperation)] }, true)

/-- `wrappedLines.forEach(line => textCtx.fillText(line, ...))`: an
exception thrown by a callback aborts the iteration and propagates. -/
def paintLines (failsAt : List Char → Bool) :
    List (List Char) → Ctx2D → Ctx2D × Bool
  | [], ctx => (ctx, true)
  | line :: rest, ctx =>
    let step := fillTextOp failsAt ctx line
    if step.2 then paintLines failsAt rest step.1 else (step.1, false)

/-- The compositing-sensitive part of the rasterize step (source line 471):
set `destination-out` when `transparencyMode === 'text'`, paint every
wrapped line, then set `source-over` — the restore statement is only
reached when no paint call threw. -/
def glyphPaintPhase (mode : TransparencyMode) (failsAt : List Char → Bool)
    (lines : List (List Char)) (ctx : Ctx2D) : Ctx2D × Bool :=
  let ctx1 := if mode = TransparencyMode.text then
    { ctx with globalCompositeOperation := CompositeOp.destinationOut }
  else ctx
  let run := paintLines failsAt lines ctx1
  if run.2 then
    ({ run.1 with globalCompositeOperation := CompositeOp.sourceOver }, true)
  else
    (run.1, false)

/-! ### The per-frame render guard (v1 `render`, source lines 244-256) -/

/-- The pipeline refs the render loop reads (`glRef`, `programInfoRef`,
`buffersRef`); their payloads are irrelevant to the guard, only presence
matters. -/
structure RenderRefs where
  gl : Option Unit
  programInfo : Option Unit
  buffers : Option Unit

/-- The observable effect of one completed draw: the uniform scalars
uploaded for the frame and the clear color chosen from the background. -/
structure DrawCall where
  clear : Rgb
  uDistortionQ : ℚ
  uZoomQ : ℚ
  uTimeQ : ℚ
  uNoiseAmountQ : ℚ
  uScanlineIntensityQ : ℚ
  uScanlineFrequencyQ : ℚ
  deriving DecidableEq

/-- Things a `render` call can throw in the host language; dereferencing
`hexToRgb(bgColor)` when it returned `null` is one. -/
inductive RenderError
  | typeError
  deriving DecidableEq

/-- The v1 `render(time)` body (source lines 244-280): scale `time` by
`0.001`, then the guard `if (!currentGl || !programInfo || !buffers) return;`
(no draw, no throw); otherwise clear with `hexToRgb(bgColor)` and issue the
draw with the latest scalar parameters and `scanlineFrequency = height × 1.5`. -/
def render (refs : RenderRefs) (bgColor : List Char)
    (distortion zoom noiseAmount scanlineIntensity canvasHeight : ℚ)
    (time : ℚ) : Except RenderError (Option DrawCall) :=
  let t := time * 0.001
  if refs.gl.isNone || refs.programInfo.isNone || refs.buffers.isNone then
    Except.ok none
  else
    match hexToRgb bgColor with
    | none => Except.error RenderError.typeError
    | some rgb => Except.ok (some
        { clear := rgb
          uDistortionQ := distortion
          uZoomQ := zoom
          uTimeQ := t
          uNoiseAmountQ := noiseAmount
          uScanlineIntensityQ := scanlineIntensity
          uScanlineFrequencyQ := canvasHeight * 1.5 })

/-! ### The fragment shader (v2 `fsSource`, source lines 358-418; the
barrel remap, boundary test, scanline and noise are identical in the
v1 shader, lines 15-50) -/

/-- A `vec4` color as the shader manipulates it. -/
structure Vec4 where
  r : ℝ
  g : ℝ
  b : ℝ
  a : ℝ

/-- The uniforms the fragment shader reads. -/
structure FragUniforms where
  uDistortion : ℝ
  uZoom : ℝ
  uTime : ℝ
  uNoiseAmount : ℝ
  uScanlineIntensity : ℝ
  uScanlineFrequency : ℝ
  uBlurAmount : ℝ

/-- The shader's hash:
`fract(sin(dot(st.xy, vec2(12.9898,78.233))) * 43758.5453123)`. -/
noncomputable def random (st : ℝ × ℝ) : ℝ :=
  Int.fract (Real.sin (st.1 * 12.9898 + st.2 * 78.233) * 43758.5453123)

/-- The noise added in the in-bounds branch:
`(random(vTexCoord + uTime) - 0.5) * uNoiseAmount` (a `vec2 + float`
adds the scalar to both components). -/
noncomputable def noiseTerm (vTexCoord : ℝ × ℝ) (uTime uNoiseAmount : ℝ) : ℝ :=
  (random (vTexCoord.1 + uTime, vTexCoord.2 + uTime) - 0.5) * uNoiseAmount

/-- The `CLAMP_TO_EDGE` wrap configured at texture setup (source lines
211-212 and 509): sampling coordinates are clamped into the unit range. -/
noncomputable def clampCoord (t : ℝ) : ℝ := max 0 (min 1 t)

/-- `texture2D(uSampler, c)` against the bound texture `tex`, honoring
the `CLAMP_TO_EDGE` wrap mode on both axes. -/
noncomputable def texture2D (tex : ℝ → ℝ → Vec4) (c : ℝ × ℝ) : Vec4 :=
  tex (clampCoord c.1) (clampCoord c.2)

/-- Stage 1 of `main`: the barrel remap.  `center = (0.5, 0.5)`,
`coord = (vTexCoord - center) * uZoom`, `dist = length(coord)`,
`factor = 1.0 + uDistortion * dist * dist`,
result `= coord * factor / uZoom + center`. -/
noncomputable def barrelRemap (uDistortion uZoom : ℝ) (vTexCoord : ℝ × ℝ) :
    ℝ × ℝ :=
  let coord : ℝ × ℝ := ((vTexCoord.1 - 0.5) * uZoom, (vTexCoord.2 - 0.5) * uZoom)
  let dist : ℝ := Real.sqrt (coord.1 * coord.1 + coord.2 * coord.2)
  let factor : ℝ := 1 + uDistortion * dist * dist
  (coord.1 * factor / uZoom + 0.5, coord.2 * factor / uZoom + 0.5)

/-- Componentwise sum of two colors (the shader's `sum += ...`). -/
noncomputable def Vec4.add (p q : Vec4) : Vec4 :=
  ⟨p.r + q.r, p.g + q.g, p.b + q.b, p.a + q.a⟩

/-- The 9-tap box blur: samples a 3×3 grid around `dc` offset by
`uBlurAmount * texelSize.x` with `texelSize = 1/512`, then averages. -/
noncomputable def blurSample (tex : ℝ → ℝ → Vec4) (u : FragUniforms)
    (dc : ℝ × ℝ) : Vec4 :=
  let blurStep : ℝ := u.uBlurAmount * (1 / 512)
  let tap : ℝ → ℝ → Vec4 := fun x y =>
    texture2D tex (dc.1 + x * blurStep, dc.2 + y * blurStep)
  let sum := ((((((((tap (-1) (-1)).add (tap (-1) 0)).add (tap (-1) 1)).add
    (tap 0 (-1))).add (tap 0 0)).add (tap 0 1)).add
    (tap 1 (-1))).add (tap 1 0)).add (tap 1 1)
  ⟨sum.r / 9, sum.g / 9, sum.b / 9, sum.a / 9⟩

/-- Stage 2 of `main`: sample the texture at the remapped coordinate,
through the box blur when `uBlurAmount > 0.0`. -/
noncomputable def sampleStage (tex : ℝ → ℝ → Vec4) (u : FragUniforms)
    (dc : ℝ × ℝ) : Vec4 :=
  if 0 < u.uBlurAmount then blurSample tex u dc else texture2D tex dc

/-- The fragment shader's `main`, as the source orders it: remap, sample
(note: the sample happens before the boundary test), then — only when the
remapped coordinate is inside `[0,1]²` — subtract the scanline term and
add the noise term to the rgb channels.  On the out-of-bounds branch the
sampled color is returned unchanged (`gl_FragColor = color`). -/
noncomputable def fragMain (tex : ℝ → ℝ → Vec4) (u : FragUniforms)
    (vTexCoord : ℝ × ℝ) : Vec4 :=
  let distortedCoord := barrelRemap u.uDistortion u.uZoom vTexCoord
  let color := sampleStage tex u distortedCoord
  if distortedCoord.1 < 0 ∨ 1 < distortedCoord.1 ∨
     distortedCoord.2 < 0 ∨ 1 < distortedCoord.2 then
    color
  else
    let scanline := Real.sin (distortedCoord.2 * u.uScanlineFrequency) *
      u.uScanlineIntensity
    let noise := noiseTerm vTexCoord u.uTime u.uNoiseAmount
    ⟨color.r - scanline + noise, color.g - scanline + noise,
     color.b - scanline + noise, color.a⟩

/-- Reference pipeline written from the spec's words for the
`distortion=0, zoom=1` claim: the identical fragment stage with the barrel
remap removed, i.e. sampling and post-processing at the original
coordinate `c` itself. -/
noncomputable def fragMainNoRemap (tex : ℝ → ℝ → Vec4) (u : FragUniforms)
    (vTexCoord : ℝ × ℝ) : Vec4 :=
  let color := sampleStage tex u vTexCoord
  if vTexCoord.1 < 0 ∨ 1 < vTexCoord.1 ∨ vTexCoord.2 < 0 ∨ 1 < vTexCoord.2 then
    color
  else
    let scanline := Real.sin (vTexCoord.2 * u.uScanlineFrequency) *
      u.uScanlineIntensity
    let noise := noiseTerm vTexCoord u.uTime u.uNoiseAmount
    ⟨color.r - scanline + noise, color.g - scanline + noise,
     color.b - scanline + noise, color.a⟩

/-- The constant all-white texture, used as a concrete bitmap witness. -/
noncomputable def whiteTex : ℝ → ℝ → Vec4 := fun _ _ => ⟨1, 1, 1, 1⟩

/-! ### Helper lemmas -/

/-- Unfolding `intercalate` one element at a time. -/
theorem intercalate_two {α : Type} (x : α) (a b : List α) (l : List (List α)) :
    List.intercalate [x] (a :: b :: l) = a ++ x :: List.intercalate [x] (b :: l) := by
  simp [List.intercalate, List.intersperse_cons_cons]

/-- `intercalate` on a singleton list of lists. -/
theorem intercalate_single {α : Type} (x : α) (a : List α) :
    List.intercalate [x] [a] = a := by
  simp [List.intercalate]

/-- The wrap loop always emits at least the pending line. -/
theorem wrapAux_ne_nil (m : List Char → ℚ) (mw : ℚ) (ws : List (List Char)) :
    ∀ cur, wrapAux m mw cur ws ≠ [] := by
  induction ws with
  | nil => intro cur; simp [wrapAux]
  | cons w rest ih =>
    intro cur
    simp only [wrapAux]
    split
    · exact ih _
    · simp

/-- The wrap loop preserves the space-joined content of the pending line
followed by the remaining words. -/
theorem wrapAux_intercalate (m : List Char → ℚ) (mw : ℚ)
    (ws : List (List Char)) :
    ∀ cur, List.intercalate [' '] (wrapAux m mw cur ws) =
      List.intercalate [' '] (cur :: ws) := by
  induction ws with
  | nil => intro cur; rfl
  | cons w rest ih =>
    intro cur
    simp only [wrapAux]
    split
    · rw [ih]
      cases rest with
      | nil => rw [intercalate_two, intercalate_single, intercalate_single]
      | cons r rs =>
        rw [intercalate_two, intercalate_two, intercalate_two]
        simp [List.append_assoc]
    · obtain ⟨b, l, hb⟩ := List.exists_cons_of_ne_nil (wrapAux_ne_nil m mw rest w)
      rw [hb, intercalate_two, ← hb, ih, intercalate_two]

/-- Every hex digit accepted by the character class has value at most 15. -/
theorem hexDigitVal_le (c : Char) (h : isHexDigitChar c = true) :
    hexDigitVal c ≤ 15 := by
  have h' : ((48 ≤ c.toNat ∧ c.toNat ≤ 57) ∨ (97 ≤ c.toNat ∧ c.toNat ≤ 102)) ∨
      (65 ≤ c.toNat ∧ c.toNat ≤ 70) := by
    simpa [isHexDigitChar, Bool.or_eq_true, Bool.and_eq_true,
      decide_eq_true_eq] using h
  unfold hexDigitVal
  split
  · next hc =>
    have hc' : 48 ≤ c.toNat ∧ c.toNat ≤ 57 := by
      simpa [Bool.and_eq_true, decide_eq_true_eq] using hc
    omega
  · next hc =>
    have hc' : ¬ (48 ≤ c.toNat ∧ c.toNat ≤ 57) := by
      simpa [Bool.and_eq_true, decide_eq_true_eq] using hc
    split
    · next hd =>
      have hd' : 97 ≤ c.toNat := by simpa using hd
      omega
    · next hd =>
      have hd' : ¬ 97 ≤ c.toNat := by simpa using hd
      omega

/-- A two-digit hex value over 255 lies in the unit interval. -/
theorem div255_mem_unit (n : ℕ) (hn : n ≤ 255) :
    0 ≤ (n : ℚ) / 255 ∧ (n : ℚ) / 255 ≤ 1 := by
  constructor
  · positivity
  · rw [div_le_one (by norm_num)]
    exact_mod_cast le_trans hn (by norm_num)

/-- Painting lines never touches the compositing mode, and every glyph it
journals is tagged with the compositing mode that was in force. -/
theorem paintLines_spec (f : List Char → Bool) (lines : List (List Char)) :
    ∀ ctx : Ctx2D,
      (paintLines f lines ctx).1.globalCompositeOperation =
        ctx.globalCompositeOperation ∧
      ∃ new, (paintLines f lines ctx).1.painted = ctx.painted ++ new ∧
        ∀ e ∈ new, e.2 = ctx.globalCompositeOperation := by
  induction lines with
  | nil =>
    intro ctx
    exact ⟨rfl, [], (List.append_nil _).symm, by simp⟩
  | cons l rest ih =>
    intro ctx
    by_cases hf : f l = true
    · simp only [paintLines, fillTextOp, hf, if_true]
      exact ⟨rfl, [], (List.append_nil _).symm, by simp⟩
    · simp only [paintLines, fillTextOp, hf, if_false, Bool.false_eq_true]
      obtain ⟨hop, new, hpaint, htag⟩ := ih
        { ctx with painted := ctx.painted ++ [(l, ctx.globalCompositeOperation)] }
      refine ⟨hop, (l, ctx.globalCompositeOperation) :: new, ?_, ?_⟩
      · simpa [List.append_assoc] using hpaint
      · intro e he
        rcases List.mem_cons.mp he with rfl | he
        · rfl
        · exact htag e he

/-- The remap at `distortion = 0, zoom = 1` fixes every coordinate. -/
theorem barrelRemap_id (c : ℝ × ℝ) : barrelRemap 0 1 c = c := by
  unfold barrelRemap
  rw [Prod.ext_iff]
  constructor <;> · dsimp only; ring

/-! ### Claim theorems -/

/-- C4: a raw line that contains no space character is never word-wrapped,
even when its measured width exceeds the `0.9 × targetWidth` threshold:
the rasterizer emits it as a single line (wrapping requires both the
width excess and a space). -/
theorem noSpace_line_never_wrapped (context : List Char → ℚ) (maxWidth : ℚ)
    (line : List Char) (_hwide : context line > maxWidth)
    (hnospace : ' ' ∉ line) :
    processRawLine context maxWidth line = [line] := by
  unfold processRawLine
  rw [if_neg]
  intro hc
  exact hnospace hc.2

/-- C4 witness: a spaceless line nine times wider than the threshold is
emitted unwrapped. -/
theorem noSpace_line_never_wrapped_witness :
    (fun _ : List Char => (900 : ℚ)) ['W', 'I', 'D', 'E'] > 100 ∧
    ' ' ∉ ['W', 'I', 'D', 'E'] ∧
    processRawLine (fun _ => 900) 100 ['W', 'I', 'D', 'E'] = [['W', 'I', 'D', 'E']] :=
  ⟨by norm_num, by decide,
    noSpace_line_never_wrapped _ 100 _ (by norm_num) (by decide)⟩

/-- C7: a call to the per-frame `render` while any piece of pipeline state
(GL context, compiled program info, buffers) is still missing is a no-op:
it returns without producing a draw call and without raising an error. -/
theorem render_uninitialized_noop (refs : RenderRefs) (bgColor : List Char)
    (distortion zoom noiseAmount scanlineIntensity canvasHeight time : ℚ)
    (h : refs.gl = none ∨ refs.programInfo = none ∨ refs.buffers = none) :
    render refs bgColor distortion zoom noiseAmount scanlineIntensity
      canvasHeight time = Except.ok none := by
  rcases h with h | h | h <;> simp [render, h]

/-- C7 witness: with the GL ref still unset the call yields `ok none`. -/
theorem render_uninitialized_noop_witness :
    (⟨none, some (), some ()⟩ : RenderRefs).gl = none ∧
    render ⟨none, some (), some ()⟩ ['#', '0', '0', '0', '0', '0', '0']
      2 (3/2) (1/20) (3/20) 512 0 = Except.ok none :=
  ⟨rfl, render_uninitialized_noop _ _ _ _ _ _ _ _ (Or.inl rfl)⟩

/-- C8: every color accepted by `hexToRgb` (optional `#`, then exactly six
hex digits) has each component equal to its two-digit hex value divided by
255, hence inside `[0, 1]`. -/
theorem hexToRgb_normalized (hex : List Char) (c : Rgb)
    (h : hexToRgb hex = some c) :
    (∃ n : ℕ, n ≤ 255 ∧ c.r = (n : ℚ) / 255) ∧
    (∃ n : ℕ, n ≤ 255 ∧ c.g = (n : ℚ) / 255) ∧
    (∃ n : ℕ, n ≤ 255 ∧ c.b = (n : ℚ) / 255) ∧
    0 ≤ c.r ∧ c.r ≤ 1 ∧ 0 ≤ c.g ∧ c.g ≤ 1 ∧ 0 ≤ c.b ∧ c.b ≤ 1 := by
  unfold hexToRgb at h
  split at h
  · next c1 c2 c3 c4 c5 c6 hs =>
    split at h
    · next hdig =>
      simp only [Bool.and_eq_true] at hdig
      obtain ⟨⟨⟨⟨⟨h1, h2⟩, h3⟩, h4⟩, h5⟩, h6⟩ := hdig
      have v1 := hexDigitVal_le _ h1
      have v2 := hexDigitVal_le _ h2
      have v3 := hexDigitVal_le _ h3
      have v4 := hexDigitVal_le _ h4
      have v5 := hexDigitVal_le _ h5
      have v6 := hexDigitVal_le _ h6
      cases Option.some.inj h
      refine ⟨⟨16 * hexDigitVal c1 + hexDigitVal c2, by omega, rfl⟩,
        ⟨16 * hexDigitVal c3 + hexDigitVal c4, by omega, rfl⟩,
        ⟨16 * hexDigitVal c5 + hexDigitVal c6, by omega, rfl⟩, ?_⟩
      have b1 := div255_mem_unit (16 * hexDigitVal c1 + hexDigitVal c2) (by omega)
      have b2 := div255_mem_unit (16 * hexDigitVal c3 + hexDigitVal c4) (by omega)
      have b3 := div255_mem_unit (16 * hexDigitVal c5 + hexDigitVal c6) (by omega)
      exact ⟨b1.1, b1.2, b2.1, b2.2, b3.1, b3.2⟩
    · simp at h
  · simp at h

/-- C8 witness: `#ff8040` parses to `(1, 128/255, 64/255)`, all in `[0,1]`. -/
theorem hexToRgb_normalized_witness :
    (∃ n : ℕ, n ≤ 255 ∧ (Rgb.mk 1 (128/255) (64/255)).r = (n : ℚ) / 255) ∧
    (∃ n : ℕ, n ≤ 255 ∧ (Rgb.mk 1 (128/255) (64/255)).g = (n : ℚ) / 255) ∧
    (∃ n : ℕ, n ≤ 255 ∧ (Rgb.mk 1 (128/255) (64/255)).b = (n : ℚ) / 255) ∧
    0 ≤ (Rgb.mk 1 (128/255) (64/255)).r ∧ (Rgb.mk 1 (128/255) (64/255)).r ≤ 1 ∧
    0 ≤ (Rgb.mk 1 (128/255) (64/255)).g ∧ (Rgb.mk 1 (128/255) (64/255)).g ≤ 1 ∧
    0 ≤ (Rgb.mk 1 (128/255) (64/255)).b ∧ (Rgb.mk 1 (128/255) (64/255)).b ≤ 1 :=
  hexToRgb_normalized ['#', 'f', 'f', '8', '0', '4', '0'] _ (by
    have h2 : hexToRgb ['#', 'f', 'f', '8', '0', '4', '0'] =
        some ⟨((16 * hexDigitVal 'f' + hexDigitVal 'f' : ℕ) : ℚ) / 255,
              ((16 * hexDigitVal '8' + hexDigitVal '0' : ℕ) : ℚ) / 255,
              ((16 * hexDigitVal '4' + hexDigitVal '0' : ℕ) : ℚ) / 255⟩ := rfl
    rw [h2]
    norm_num [show hexDigitVal 'f' = 15 from rfl, show hexDigitVal '8' = 8 from rfl,
      show hexDigitVal '4' = 4 from rfl, show hexDigitVal '0' = 0 from rfl,
      Option.some.injEq, Rgb.mk.injEq])

/-- C9 (`buildTypingSequence` is spec-modelled; absent from `src/`):
splitting on whitespace runs and accumulating token prefixes gives
`"a b c" ↦ ["a", "a b", "a b c"]`, and an input with no tokens (here `""`)
maps to the single-element sequence holding the input itself. -/
theorem buildTypingSequence_spec_examples :
    buildTypingSequence ['a', ' ', 'b', ' ', 'c'] =
      [['a'], ['a', ' ', 'b'], ['a', ' ', 'b', ' ', 'c']] ∧
    buildTypingSequence [] = [[]] := by
  constructor <;> rfl

/-- C10: `wrapText` never loses, duplicates or reorders content: it
returns a non-empty list of lines whose single-space join is exactly the
input text, for every measure function and every maximum width. -/
theorem wrapText_preserves_content (context : List Char → ℚ)
    (text : List Char) (maxWidth : ℚ) :
    wrapText context text maxWidth ≠ [] ∧
    List.intercalate [' '] (wrapText context text maxWidth) = text := by
  unfold wrapText
  obtain ⟨a, t, ht⟩ := List.exists_cons_of_ne_nil
    (List.splitOnP_ne_nil (fun c => c == ' ') text)
  rw [show text.splitOn ' ' = text.splitOnP (fun c => c == ' ') from rfl, ht]
  constructor
  · exact wrapAux_ne_nil _ _ _ _
  · simp only [List.headD_cons, List.tail_cons]
    rw [wrapAux_intercalate, ← ht]
    exact List.intercalate_splitOn text ' '

/-- C5 counterexample: in transparent-text mode, when the (single) glyph
paint throws, the rasterize step exits on the error path with the
compositing mode still `destination-out` — the restore statement is never
reached, so restoration is not guaranteed on every exit path. -/
theorem glyphPaint_error_skips_restore :
    (glyphPaintPhase TransparencyMode.text (fun _ => true) [['A']]
      (Ctx2D.mk CompositeOp.sourceOver [])).1.globalCompositeOperation =
      CompositeOp.destinationOut ∧
    (glyphPaintPhase TransparencyMode.text (fun _ => true) [['A']]
      (Ctx2D.mk CompositeOp.sourceOver [])).2 = false := by
  constructor <;> rfl

/-- C5 amended: in transparent-text mode the compositing mode is switched
to `destination-out` for glyph painting — every glyph painted during the
step is journaled under `destination-out` — and is restored to
`source-over` on the normal completion path only; if a paint call raises,
the step exits with the mode left as it was when the error occurred. -/
theorem glyphPaint_restore_on_success (mode : TransparencyMode)
    (f : List Char → Bool) (lines : List (List Char)) (ctx : Ctx2D)
    (hok : (glyphPaintPhase mode f lines ctx).2 = true) :
    (glyphPaintPhase mode f lines ctx).1.globalCompositeOperation =
      CompositeOp.sourceOver ∧
    (mode = TransparencyMode.text →
      ∃ new, (glyphPaintPhase mode f lines ctx).1.painted = ctx.painted ++ new ∧
        ∀ e ∈ new, e.2 = CompositeOp.destinationOut) := by
  by_cases hmode : mode = TransparencyMode.text
  · subst hmode
    cases hr : (paintLines f lines
        { ctx with globalCompositeOperation := CompositeOp.destinationOut }).2 with
    | false => exact absurd hok (by simp [glyphPaintPhase, hr])
    | true =>
      obtain ⟨hop, new, hpaint, htag⟩ := paintLines_spec f lines
        { ctx with globalCompositeOperation := CompositeOp.destinationOut }
      refine ⟨?_, fun _ => ⟨new, ?_, htag⟩⟩
      · simp [glyphPaintPhase, hr]
      · simp [glyphPaintPhase, hr, hpaint]
  · refine ⟨?_, fun hmode2 => absurd hmode2 hmode⟩
    cases hr : (paintLines f lines ctx).2 with
    | false => exact absurd hok (by simp [glyphPaintPhase, hmode, hr])
    | true => simp [glyphPaintPhase, hmode, hr]

/-- C5 witness: with a painter that never throws, a transparent-text
rasterize of one line ends back at `source-over` and journals the glyph
under `destination-out`. -/
theorem glyphPaint_restore_on_success_witness :
    (glyphPaintPhase TransparencyMode.text (fun _ => false) [['A']]
      (Ctx2D.mk CompositeOp.sourceOver [])).1.globalCompositeOperation =
      CompositeOp.sourceOver ∧
    (TransparencyMode.text = TransparencyMode.text →
      ∃ new, (glyphPaintPhase TransparencyMode.text (fun _ => false) [['A']]
          (Ctx2D.mk CompositeOp.sourceOver [])).1.painted =
        (Ctx2D.mk CompositeOp.sourceOver []).painted ++ new ∧
        ∀ e ∈ new, e.2 = CompositeOp.destinationOut) :=
  glyphPaint_restore_on_success TransparencyMode.text (fun _ => false)
    [['A']] (Ctx2D.mk CompositeOp.sourceOver []) rfl

/-- C6: the shader hash `random` is a pure function of its input vector,
and the noise contribution is a pure function of the fragment coordinate,
the time and the noise amount: evaluations at identical inputs are
identical, with no dependence on hidden state. -/
theorem random_pure (st₁ st₂ uv₁ uv₂ : ℝ × ℝ) (t₁ t₂ amount : ℝ)
    (hst : st₁ = st₂) (huv : uv₁ = uv₂) (ht : t₁ = t₂) :
    random st₁ = random st₂ ∧ noiseTerm uv₁ t₁ amount = noiseTerm uv₂ t₂ amount := by
  subst hst
  subst huv
  subst ht
  exact ⟨rfl, rfl⟩

/-- C6 witness: purity at a concrete coordinate/time pair. -/
theorem random_pure_witness :
    random ((3 : ℝ)/10, 7/10) = random ((3 : ℝ)/10, 7/10) ∧
    noiseTerm ((3 : ℝ)/10, 7/10) 2 (1/20) = noiseTerm ((3 : ℝ)/10, 7/10) 2 (1/20) :=
  random_pure _ _ _ _ _ _ _ rfl rfl rfl

/-- Closed form of the remap for a nonzero zoom: the `sqrt` from
`length(coord)` cancels against its square in the factor. -/
theorem barrelRemap_eval (d z : ℝ) (c : ℝ × ℝ) (hz : z ≠ 0) :
    barrelRemap d z c =
      ((c.1 - 0.5) * (1 + d * (z * z) *
        ((c.1 - 0.5) * (c.1 - 0.5) + (c.2 - 0.5) * (c.2 - 0.5))) + 0.5,
       (c.2 - 0.5) * (1 + d * (z * z) *
        ((c.1 - 0.5) * (c.1 - 0.5) + (c.2 - 0.5) * (c.2 - 0.5))) + 0.5) := by
  unfold barrelRemap
  have hnn : (0:ℝ) ≤ (c.1 - 0.5) * z * ((c.1 - 0.5) * z) +
      (c.2 - 0.5) * z * ((c.2 - 0.5) * z) := by
    nlinarith [sq_nonneg ((c.1 - 0.5) * z), sq_nonneg ((c.2 - 0.5) * z)]
  rw [Prod.ext_iff]
  constructor <;>
  · dsimp only
    rw [mul_assoc d, Real.mul_self_sqrt hnn]
    field_simp
    ring

/-- C3: with `distortion = 0` and `zoom = 1` the barrel remap is the
identity on every coordinate, and the pipeline's output coincides with the
remap-free pipeline (the same sampling, scanline and noise stages applied
at the original coordinate). -/
theorem distortionZero_zoomOne_identity (tex : ℝ → ℝ → Vec4)
    (u : FragUniforms) (c : ℝ × ℝ)
    (hd : u.uDistortion = 0) (hz : u.uZoom = 1) :
    barrelRemap u.uDistortion u.uZoom c = c ∧
    fragMain tex u c = fragMainNoRemap tex u c := by
  have hr : barrelRemap u.uDistortion u.uZoom c = c := by
    rw [hd, hz]
    exact barrelRemap_id c
  refine ⟨hr, ?_⟩
  simp only [fragMain, fragMainNoRemap, hr]

/-- C3 witness: at `(1/4, 1/3)` with the zero-distortion, unit-zoom
uniforms the remap fixes the point and the two pipelines agree. -/
theorem distortionZero_zoomOne_identity_witness :
    barrelRemap (FragUniforms.mk 0 1 0 0 0 0 0).uDistortion
      (FragUniforms.mk 0 1 0 0 0 0 0).uZoom ((1:ℝ)/4, (1:ℝ)/3) =
      ((1:ℝ)/4, (1:ℝ)/3) ∧
    fragMain whiteTex (FragUniforms.mk 0 1 0 0 0 0 0) ((1:ℝ)/4, (1:ℝ)/3) =
      fragMainNoRemap whiteTex (FragUniforms.mk 0 1 0 0 0 0 0) ((1:ℝ)/4, (1:ℝ)/3) :=
  distortionZero_zoomOne_identity whiteTex _ _ rfl rfl

/-- C1 (code bug): at `vTexCoord = (0, 1/3)` with distortion 2, zoom 1 and
blur off, the remapped x coordinate `-5/18` is out of bounds — yet the
shader has already sampled the texture (edge-clamped by `CLAMP_TO_EDGE`)
and `gl_FragColor = color` writes that sample: over the all-white texture
the fragment is white, not the black clear color that the shader's own
boundary comment says should show through. -/
theorem oob_fragment_is_clamped_sample :
    (barrelRemap 2 1 ((0:ℝ), 1/3)).1 < 0 ∧
    fragMain whiteTex ⟨2, 1, 0, 0, 0, 0, 0⟩ (0, 1/3) = ⟨1, 1, 1, 1⟩ ∧
    (⟨1, 1, 1, 1⟩ : Vec4) ≠ ⟨0, 0, 0, 1⟩ := by
  have hb : barrelRemap 2 1 ((0:ℝ), (1/3 : ℝ)) = (-(5/18 : ℝ), 13/54) := by
    rw [barrelRemap_eval 2 1 (0, 1/3) one_ne_zero]
    norm_num
  refine ⟨by rw [hb]; norm_num, ?_, ?_⟩
  · norm_num [fragMain, hb, sampleStage, texture2D, whiteTex]
  · intro h
    have h1 := congrArg Vec4.r h
    norm_num at h1

/-- Sampling depends on the uniforms only through the blur amount. -/
theorem sampleStage_blur_only (tex : ℝ → ℝ → Vec4) (u₁ u₂ : FragUniforms)
    (dc : ℝ × ℝ) (h : u₁.uBlurAmount = u₂.uBlurAmount) :
    sampleStage tex u₁ dc = sampleStage tex u₂ dc := by
  unfold sampleStage blurSample
  rw [h]

/-- C2 counterexample: at the in-bounds fragment `(1/2, π/1536)` with
`scanlineFrequency = 768` and `scanlineIntensity = 3/20` (noise off,
remap at identity), the pipeline output is `17/20` at simulated time `0`
and still `17/20` at simulated time `1`: the scanline subtraction is
active (`17/20 ≠ 1`) yet carries no time-based scroll offset, so the
scanline pattern does not scroll with simulated time as claimed. -/
theorem scanline_has_no_time_scroll_cex :
    fragMain whiteTex ⟨0, 1, 0, 0, 3/20, 768, 0⟩ ((1:ℝ)/2, Real.pi/1536) =
      ⟨17/20, 17/20, 17/20, 1⟩ ∧
    fragMain whiteTex ⟨0, 1, 1, 0, 3/20, 768, 0⟩ ((1:ℝ)/2, Real.pi/1536) =
      ⟨17/20, 17/20, 17/20, 1⟩ ∧
    ((17:ℝ)/20) ≠ 1 := by
  have key : ∀ t : ℝ,
      fragMain whiteTex ⟨0, 1, t, 0, 3/20, 768, 0⟩ ((1:ℝ)/2, Real.pi/1536) =
        ⟨17/20, 17/20, 17/20, 1⟩ := by
    intro t
    have hπ : (0:ℝ) < Real.pi := Real.pi_pos
    have hπ4 : Real.pi ≤ 4 := Real.pi_le_four
    have hid : barrelRemap 0 1 ((1:ℝ)/2, Real.pi/1536) =
        ((1:ℝ)/2, Real.pi/1536) := barrelRemap_id _
    have hin : ¬ (((1:ℝ)/2) < 0 ∨ 1 < ((1:ℝ)/2) ∨
        Real.pi/1536 < 0 ∨ 1 < Real.pi/1536) := by
      push_neg
      refine ⟨by norm_num, by norm_num, by positivity, ?_⟩
      rw [div_le_one (by norm_num)]
      linarith
    have hsin : Real.sin (Real.pi / 1536 * 768) = 1 := by
      rw [show Real.pi / 1536 * 768 = Real.pi / 2 by ring]
      exact Real.sin_pi_div_two
    have hnoise : noiseTerm ((1:ℝ)/2, Real.pi/1536) t 0 = 0 := by
      simp [noiseTerm]
    simp only [fragMain, hid]
    rw [if_neg hin]
    norm_num [sampleStage, texture2D, whiteTex, hsin, hnoise]
  exact ⟨key 0, key 1, by norm_num⟩

/-- C2 amended: for every in-bounds fragment the term subtracted from the
color is `sin(y' × scanlineFrequency) × scanlineIntensity` where `y'` is
the remapped y coordinate itself — there is no time-based scroll offset —
and consequently, with noise disabled, the pipeline output is entirely
independent of the simulated time. -/
theorem scanline_term_is_static (tex : ℝ → ℝ → Vec4) (u : FragUniforms)
    (c : ℝ × ℝ)
    (hin : ¬ ((barrelRemap u.uDistortion u.uZoom c).1 < 0 ∨
        1 < (barrelRemap u.uDistortion u.uZoom c).1 ∨
        (barrelRemap u.uDistortion u.uZoom c).2 < 0 ∨
        1 < (barrelRemap u.uDistortion u.uZoom c).2)) :
    (fragMain tex u c).r =
      (sampleStage tex u (barrelRemap u.uDistortion u.uZoom c)).r -
        Real.sin ((barrelRemap u.uDistortion u.uZoom c).2 * u.uScanlineFrequency) *
          u.uScanlineIntensity + noiseTerm c u.uTime u.uNoiseAmount ∧
    ∀ t₁ t₂ : ℝ,
      fragMain tex { u with uTime := t₁, uNoiseAmount := 0 } c =
        fragMain tex { u with uTime := t₂, uNoiseAmount := 0 } c := by
  constructor
  · simp only [fragMain]
    rw [if_neg hin]
  · intro t₁ t₂
    have hs₁ : sampleStage tex { u with uTime := t₁, uNoiseAmount := 0 }
        (barrelRemap u.uDistortion u.uZoom c) =
        sampleStage tex u (barrelRemap u.uDistortion u.uZoom c) :=
      sampleStage_blur_only _ _ _ _ rfl
    have hs₂ : sampleStage tex { u with uTime := t₂, uNoiseAmount := 0 }
        (barrelRemap u.uDistortion u.uZoom c) =
        sampleStage tex u (barrelRemap u.uDistortion u.uZoom c) :=
      sampleStage_blur_only _ _ _ _ rfl
    simp only [fragMain]
    rw [if_neg hin, if_neg hin, hs₁, hs₂]
    simp [noiseTerm]

/-- C2 witness: the static-scanline formula and the time-independence at
the concrete in-bounds fragment `(1/2, 1/2)` of a concrete uniform set. -/
theorem scanline_term_is_static_witness :
    (fragMain whiteTex (FragUniforms.mk 0 1 5 (1/20) (3/20) 768 0)
        ((1:ℝ)/2, (1:ℝ)/2)).r =
      (sampleStage whiteTex (FragUniforms.mk 0 1 5 (1/20) (3/20) 768 0)
        (barrelRemap (FragUniforms.mk 0 1 5 (1/20) (3/20) 768 0).uDistortion
          (FragUniforms.mk 0 1 5 (1/20) (3/20) 768 0).uZoom
          ((1:ℝ)/2, (1:ℝ)/2))).r -
        Real.sin ((barrelRemap (FragUniforms.mk 0 1 5 (1/20) (3/20) 768 0).uDistortion
          (FragUniforms.mk 0 1 5 (1/20) (3/20) 768 0).uZoom
          ((1:ℝ)/2, (1:ℝ)/2)).2 *
          (FragUniforms.mk 0 1 5 (1/20) (3/20) 768 0).uScanlineFrequency) *
          (FragUniforms.mk 0 1 5 (1/20) (3/20) 768 0).uScanlineIntensity +
        noiseTerm ((1:ℝ)/2, (1:ℝ)/2)
          (FragUniforms.mk 0 1 5 (1/20) (3/20) 768 0).uTime
          (FragUniforms.mk 0 1 5 (1/20) (3/20) 768 0).uNoiseAmount ∧
    ∀ t₁ t₂ : ℝ,
      fragMain whiteTex
        { FragUniforms.mk 0 1 5 (1/20) (3/20) 768 0 with
            uTime := t₁, uNoiseAmount := 0 } ((1:ℝ)/2, (1:ℝ)/2) =
      fragMain whiteTex
        { FragUniforms.mk 0 1 5 (1/20) (3/20) 768 0 with
            uTime := t₂, uNoiseAmount := 0 } ((1:ℝ)/2, (1:ℝ)/2) :=
  scanline_term_is_static whiteTex (FragUniforms.mk 0 1 5 (1/20) (3/20) 768 0)
    ((1:ℝ)/2, (1:ℝ)/2) (by
      have hid : barrelRemap
          (FragUniforms.mk 0 1 5 (1/20) (3/20) 768 0).uDistortion
          (FragUniforms.mk 0 1 5 (1/20) (3/20) 768 0).uZoom
          ((1:ℝ)/2, (1:ℝ)/2) = ((1:ℝ)/2, (1:ℝ)/2) := barrelRemap_id _
      rw [hid]
      norm_num)
